import Mathlib

/-!
Verification development for the nanobasic debugger subsystem: a shallow
embedding of the execution-control state machine (DebuggerStateManager),
the breakpoint registry (BreakpointManager), the execution coordinator
(Debugger) and the interpreter driver loops (Interpreter.run / resume /
step), translated from the TypeScript sources.

Modelling conventions:
  * JavaScript `Date` timestamps are modelled as a `Nat` argument `now`
    supplied by the caller of any operation that stamps a time.
  * The JS numeric domain is modelled on integers (`Int`), with `NaN`
    represented by `none` in `Option Int` where it can arise; no claim
    depends on fractional arithmetic.
  * Console logging and event-emitter fan-out are pure observer effects
    (they mutate no state read by the subsystem) and are not modelled;
    the state-change listener registered by the Debugger constructor does
    mutate the execution-context snapshot, and that effect is modelled
    (`Debugger.notifyTransition`).
  * JS in-place object mutation is modelled by explicit state passing.
-/

/-- A source position `{line, column}` as carried by AST spans. -/
structure Pos where
  line : Int
  column : Int
  deriving Repr, DecidableEq

/-- A source span `{start, end}` carried by AST nodes. -/
structure Span where
  start : Pos
  stop : Pos
  deriving Repr, DecidableEq

/-- A breakpoint source location. The interpreter always supplies both
fields, but imported breakpoint data may lack `column` (the TS code
stores whatever object arrived); an absent column is `none`, and
JS `undefined === undefined` makes two absent columns compare equal. -/
structure SourceLocation where
  line : Int
  column : Option Int
  deriving Repr, DecidableEq

/-- A JavaScript runtime value as stored in `env.vars` and frame locals:
a number, `NaN`, or a string. -/
inductive JsVal where
  | vnum (n : Int)
  | vnan
  | vstr (s : String)
  deriving Repr, DecidableEq

/-- JS `toString` on a stored value. -/
def JsVal.jsToString : JsVal → String
  | .vnum n => toString n
  | .vnan => "NaN"
  | .vstr s => s

/-- JS truthiness of a stored value (`0`, `NaN` and `""` are falsy). -/
def JsVal.jsTruthy : JsVal → Bool
  | .vnum n => n ≠ 0
  | .vnan => false
  | .vstr s => s ≠ ""

/-- Lookup in an association list, the model of JS object key access
(`obj[k]`, `undefined` when absent). -/
def lookupAssoc (l : List (String × α)) (k : String) : Option α :=
  match l with
  | [] => none
  | (k2, v) :: rest => if k2 = k then some v else lookupAssoc rest k

/-- JS object key assignment `obj[k] = v`: overwrite in place if the key
exists, append otherwise. -/
def setAssoc (l : List (String × α)) (k : String) (v : α) : List (String × α) :=
  match l with
  | [] => [(k, v)]
  | (k2, w) :: rest => if k2 = k then (k2, v) :: rest else (k2, w) :: setAssoc rest k v

namespace DebuggerStateManager

/-- Debugger execution states (DebuggerStateManager.ts). -/
inductive DebuggerState where
  | idle
  | running
  | paused
  | stepping
  | error
  | terminated
  deriving Repr, DecidableEq

/-- Step modes for granular control. -/
inductive StepMode where
  | run
  | into
  | over
  | out
  deriving Repr, DecidableEq

/-- Pause reasons for debugging context. -/
inductive PauseReason where
  | breakpoint
  | step
  | exception
  | userRequest
  | programEnd
  deriving Repr, DecidableEq

/-- The string value of a step mode (the TS enum values). -/
def StepMode.str : StepMode → String
  | .run => "run"
  | .into => "into"
  | .over => "over"
  | .out => "out"

/-- The string value of a pause reason (the TS enum values). -/
def PauseReason.str : PauseReason → String
  | .breakpoint => "breakpoint"
  | .step => "step"
  | .exception => "exception"
  | .userRequest => "user"
  | .programEnd => "end"

/-- The valid state transition table `STATE_TRANSITIONS` exactly as
written in DebuggerStateManager.ts. -/
def STATE_TRANSITIONS : DebuggerState → List DebuggerState
  | .idle => [.running, .stepping]
  | .running => [.paused, .error, .terminated, .idle]
  | .paused => [.running, .stepping, .terminated, .idle]
  | .stepping => [.paused, .running, .error, .terminated]
  | .error => [.idle, .terminated]
  | .terminated => [.idle]

/-- Execution context tracked by the state manager. -/
structure ExecutionContext where
  currentLine : Int
  currentColumn : Int
  nodeDepth : Nat
  frameName : String
  lastExecutionTime : Nat
  deriving Repr, DecidableEq

/-- A recorded state transition (the `context?: any` payload carries no
state read back by the subsystem and is not modelled). -/
structure StateTransition where
  first : DebuggerState
  second : DebuggerState
  reason : Option String
  timestamp : Nat
  deriving Repr, DecidableEq

/-- The mutable fields of a DebuggerStateManager instance. -/
structure SMState where
  currentState : DebuggerState
  stepMode : StepMode
  pauseReason : Option PauseReason
  executionContext : Option ExecutionContext
  stateHistory : List StateTransition
  skipNextPause : Bool
  deriving Repr, DecidableEq

/-- The history ring buffer bound `maxHistorySize`. -/
def maxHistorySize : Nat := 100

/-- The state of a freshly constructed DebuggerStateManager: the
constructor records an `idle → idle` transition with reason
`initialization`. -/
def SMState.initial : SMState :=
  { currentState := .idle
    stepMode := .run
    pauseReason := none
    executionContext := none
    stateHistory := [{ first := .idle, second := .idle, reason := some "initialization", timestamp := 0 }]
    skipNextPause := false }

/-- `isValidTransition(from, to)`. -/
def isValidTransition (a b : DebuggerState) : Bool :=
  (STATE_TRANSITIONS a).contains b

/-- `recordTransition`: append to the history and drop the oldest entry
once the bound is exceeded. -/
def recordTransition (s : SMState) (a b : DebuggerState) (reason : Option String)
    (now : Nat) : SMState :=
  let hist := s.stateHistory ++ [{ first := a, second := b, reason := reason, timestamp := now }]
  let hist := if hist.length > maxHistorySize then hist.drop 1 else hist
  { s with stateHistory := hist }

/-- `transitionTo(newState, reason?)`: validated against the adjacency
table; an invalid transition returns `false` with the state untouched
(a console warning only, never an exception). The skip flag is
deliberately not cleared here. -/
def transitionTo (s : SMState) (newState : DebuggerState) (reason : Option String)
    (now : Nat) : Bool × SMState :=
  if isValidTransition s.currentState newState then
    let oldState := s.currentState
    let s := { s with currentState := newState }
    let s := if newState ≠ DebuggerState.paused then { s with pauseReason := none } else s
    (true, recordTransition s oldState newState reason now)
  else
    (false, s)

/-- `startExecution()`. -/
def startExecution (s : SMState) (now : Nat) : Bool × SMState :=
  if s.currentState = .idle then
    transitionTo { s with stepMode := .run } .running (some "execution started") now
  else
    (false, s)

/-- `isRunning()`: running or stepping. -/
def isRunning (s : SMState) : Bool :=
  s.currentState = .running ∨ s.currentState = .stepping

/-- `isPaused()`. -/
def isPaused (s : SMState) : Bool :=
  s.currentState = .paused

/-- `pauseExecution(reason, context?)`: sets the pause reason before the
transition (transitions into `paused` do not clear it). -/
def pauseExecution (s : SMState) (reason : PauseReason) (now : Nat) : Bool × SMState :=
  if isRunning s then
    transitionTo { s with pauseReason := some reason } .paused
      (some ("paused: " ++ reason.str)) now
  else
    (false, s)

/-- `resumeExecution()`: only legal from `paused`; sets step mode `run`,
sets the skip-next-pause flag, then transitions to `running`. -/
def resumeExecution (s : SMState) (now : Nat) : Bool × SMState :=
  if s.currentState = .paused then
    transitionTo { s with stepMode := .run, skipNextPause := true } .running
      (some "resumed") now
  else
    (false, s)

/-- `stepExecution(mode)`: legal from `paused` or `idle`; sets the mode
and the skip flag, then transitions to `stepping`. -/
def stepExecution (s : SMState) (mode : StepMode) (now : Nat) : Bool × SMState :=
  if s.currentState = .paused ∨ s.currentState = .idle then
    transitionTo { s with stepMode := mode, skipNextPause := true } .stepping
      (some ("step " ++ mode.str)) now
  else
    (false, s)

/-- `setSkipNextPause(skip)`. -/
def setSkipNextPause (s : SMState) (skip : Bool) : SMState :=
  { s with skipNextPause := skip }

/-- `shouldSkipPause()`. -/
def shouldSkipPause (s : SMState) : Bool :=
  s.skipNextPause

/-- JS `a || b || 0` fallback chain on numbers (`0` is falsy). -/
def jsIntOr (v : Int) (old : Option Int) : Int :=
  if v ≠ 0 then v else match old with
    | some w => if w ≠ 0 then w else 0
    | none => 0

/-- JS `a || b || 0` fallback chain on a `Nat` field. -/
def jsNatOr (v : Nat) (old : Option Nat) : Nat :=
  if v ≠ 0 then v else match old with
    | some w => if w ≠ 0 then w else 0
    | none => 0

/-- JS `a || b || fallback` chain on strings (`""` is falsy). -/
def jsStrOr (v : String) (old : Option String) (fb : String) : String :=
  if v ≠ "" then v else match old with
    | some w => if w ≠ "" then w else fb
    | none => fb

/-- `updateExecutionContext(context)`: merge with JS `||` fallbacks onto
the previous snapshot, stamping the update time. -/
def updateExecutionContext (s : SMState) (line column : Int) (depth : Nat)
    (frameName : String) (now : Nat) : SMState :=
  { s with executionContext := some (⟨
      jsIntOr line (s.executionContext.map (·.currentLine)),
      jsIntOr column (s.executionContext.map (·.currentColumn)),
      jsNatOr depth (s.executionContext.map (·.nodeDepth)),
      jsStrOr frameName (s.executionContext.map (·.frameName)) "<main>",
      now⟩ : ExecutionContext) }

end DebuggerStateManager

/-- A minimal JSON value model for the breakpoint export/import payloads
(the composition `JSON.parse ∘ JSON.stringify` is the identity on these
values, so export produces and import consumes structured values). -/
inductive Json where
  | jnull
  | jbool (b : Bool)
  | jnum (n : Int)
  | jstr (s : String)
  | jarr (elems : List Json)
  | jobj (fields : List (String × Json))

/-- JS truthiness of a JSON value (objects and arrays, even empty, are
truthy; `0`, `""`, `false` and `null` are falsy). -/
def Json.jsTruthy : Json → Bool
  | .jnull => false
  | .jbool b => b
  | .jnum n => n ≠ 0
  | .jstr s => s ≠ ""
  | .jarr _ => true
  | .jobj _ => true

/-- JS property access `v.k`: throws a TypeError on `null`, yields
`undefined` (`none`) on primitives and arrays and on a missing key. -/
def Json.get (v : Json) (k : String) : Except String (Option Json) :=
  match v with
  | .jnull => .error "TypeError: cannot read properties of null"
  | .jobj fields => .ok (lookupAssoc fields k)
  | _ => .ok none

/-- Truthiness of a possibly-`undefined` JS value. -/
def jsTruthyOpt : Option Json → Bool
  | none => false
  | some v => v.jsTruthy

namespace BreakpointManager

open DebuggerStateManager

/-- `BreakpointCondition`: an expression string plus a kind tag. The tag
is kept as a string because values arriving through `importBreakpoints`
are not confined to the declared union. -/
structure BreakpointCondition where
  expression : String
  ctype : String
  deriving Repr, DecidableEq

/-- A registered breakpoint. -/
structure Breakpoint where
  id : String
  location : SourceLocation
  enabled : Bool
  condition : Option BreakpointCondition
  hitCount : Nat
  createdAt : Nat
  lastHit : Option Nat
  logMessage : Option String
  deriving Repr, DecidableEq

/-- The mutable fields of a BreakpointManager: the `Map` keyed by id is
modelled as a list in insertion order (JS Maps iterate in insertion
order), plus the id counter. -/
structure BMState where
  breakpoints : List Breakpoint
  nextId : Nat
  deriving Repr, DecidableEq

/-- An empty registry as built by the constructor. -/
def BMState.initial : BMState := { breakpoints := [], nextId := 1 }

/-- `generateId()`: the string built from the counter and the clock. -/
def generateId (nextId : Nat) (now : Nat) : String :=
  "bp_" ++ toString nextId ++ "_" ++ toString now

/-- `locationsMatch(loc1, loc2)`: exact line and column equality. -/
def locationsMatch (l1 l2 : SourceLocation) : Bool :=
  l1.line = l2.line ∧ l1.column = l2.column

/-- `addBreakpoint(location, options)`: fresh id, hit count 0, enabled
defaulting to true (`??`), appended to the registry. Returns the new
breakpoint and the updated registry. -/
def addBreakpoint (bm : BMState) (location : SourceLocation)
    (enabled : Option Bool) (condition : Option BreakpointCondition)
    (logMessage : Option String) (now : Nat) : Breakpoint × BMState :=
  let bp : Breakpoint :=
    { id := generateId bm.nextId now
      location := location
      enabled := enabled.getD true
      condition := condition
      hitCount := 0
      createdAt := now
      lastHit := none
      logMessage := logMessage }
  (bp, { breakpoints := bm.breakpoints ++ [bp], nextId := bm.nextId + 1 })

/-- `findBreakpointAt(location)`: the first registered breakpoint whose
location matches, scanning in insertion order. -/
def findBreakpointAt (bps : List Breakpoint) (location : SourceLocation) :
    Option Breakpoint :=
  match bps with
  | [] => none
  | bp :: rest =>
    if locationsMatch bp.location location then some bp
    else findBreakpointAt rest location

/-- In-place mutation of the breakpoint object returned by
`findBreakpointAt`: replace the first location match in the list. -/
def updateFirstAt (bps : List Breakpoint) (location : SourceLocation)
    (f : Breakpoint → Breakpoint) : List Breakpoint :=
  match bps with
  | [] => []
  | bp :: rest =>
    if locationsMatch bp.location location then f bp :: rest
    else bp :: updateFirstAt rest location f

/-- The condition-evaluation context handed to `shouldPauseAt`: the
coordinator passes `{node, nodeDepth, frame, location}`; only the frame
locals, the (absent there) `env.vars`, and the location are read. A
`none` context models a JS `null`/`undefined` context object. -/
structure EvalContext where
  frameLocals : Option (List (String × JsVal))
  envVars : Option (List (String × JsVal))
  location : Option SourceLocation
  deriving Repr, DecidableEq

/-- JS `parseInt` restricted to the integer fragment: optional
whitespace and sign, then leading digits; `none` models `NaN`. -/
def jsParseInt (s : String) : Option Int :=
  let t := s.trim
  let (neg, digits) :=
    match t.toList with
    | '-' :: rest => (true, rest)
    | '+' :: rest => (false, rest)
    | l => (false, l)
  let lead := digits.takeWhile Char.isDigit
  if lead.isEmpty then none
  else
    let n := lead.foldl (fun acc c => acc * 10 + (c.toNat - '0'.toNat)) 0
    some (if neg then -(n : Int) else (n : Int))

/-- JS `parseFloat` applied to a stored value (numbers pass through,
strings are parsed, `NaN` stays `NaN`); integer fragment only. -/
def jsParseFloatVal : JsVal → Option Int
  | .vnum n => some n
  | .vnan => none
  | .vstr s => jsParseInt s

/-- Remove the first occurrence of a dollar sign, the model of
`varName.replace(chr, emptyString)` used on condition variable names. -/
def stripFirstDollar (s : String) : String :=
  match s.toList.indexOf? '$' with
  | none => s
  | some i => String.mk (s.toList.take i ++ s.toList.drop (i + 1))

/-- `evaluateExpression(expression, context)`: the hand-rolled equality
check. Splitting on the equals sign, looking the variable up in the
frame locals then (JS `a or b`, falling through on falsy values) in
`env.vars`, and comparing the string form with the expected text; any
other expression shape returns true. Its internal try/catch makes it
total. -/
def evaluateExpression (expression : String) (ctx : EvalContext) : Bool :=
  if expression.contains '=' then
    let parts := (expression.splitOn "=").map String.trim
    let varName := (parts.get? 0).getD ""
    let expectedValue := (parts.get? 1).getD ""
    let key := stripFirstDollar varName
    let fromFrame := ctx.frameLocals.bind (fun l => lookupAssoc l key)
    let fromEnv := ctx.envVars.bind (fun l => lookupAssoc l key)
    let actualValue := if jsValTruthyOpt fromFrame then fromFrame else fromEnv
    match actualValue with
    | some v => v.jsToString = expectedValue
    | none => false
  else
    true
where
  jsValTruthyOpt : Option JsVal → Bool
    | none => false
    | some v => v.jsTruthy

/-- The body of the try block of `evaluateCondition`: boolean-expression
conditions delegate to the (total) expression evaluator, hit-count
conditions re-find the breakpoint at `context.location` and compare the
parsed threshold, log-message conditions log and return false, and an
unrecognized kind returns true. Reading `context.location` of a null
context throws, which is the error case. -/
def evaluateConditionRaw (c : BreakpointCondition) (ctx : Option EvalContext)
    (bps : List Breakpoint) : Except String Bool :=
  if c.ctype = "expression" then
    match ctx with
    | none => .error "TypeError: cannot read properties of null"
    | some cv => .ok (evaluateExpression c.expression cv)
  else if c.ctype = "hitCount" then
    match ctx with
    | none => .error "TypeError: cannot read properties of null"
    | some cv =>
      let targetHits := jsParseInt c.expression
      match cv.location with
      | some loc =>
        match findBreakpointAt bps loc with
        | some bp =>
          .ok (match targetHits with
               | some t => (bp.hitCount : Int) ≥ t
               | none => false)
        | none => .ok false
      | none =>
        -- findBreakpointAt(undefined) reads `.line` of undefined inside
        -- locationsMatch as soon as the registry is nonempty
        if bps.isEmpty then .ok false
        else .error "TypeError: cannot read properties of undefined"
  else if c.ctype = "logMessage" then
    .ok false
  else
    .ok true

/-- `evaluateCondition(condition, context)`: the try/catch wrapper, with
the fail-open default of pausing when evaluation throws. -/
def evaluateCondition (c : BreakpointCondition) (ctx : Option EvalContext)
    (bps : List Breakpoint) : Bool :=
  match evaluateConditionRaw c ctx bps with
  | .ok b => b
  | .error _ => true

/-- A breakpoint hit record. -/
structure BreakpointHit where
  breakpoint : Breakpoint
  context : Option EvalContext
  timestamp : Nat
  deriving Repr, DecidableEq

/-- `shouldPauseAt(location, context)`: look up by exact location; null
when absent or disabled; otherwise unconditionally bump the hit count
and stamp the last-hit time before evaluating any condition, then let
the condition decide whether a hit is reported. -/
def shouldPauseAt (bm : BMState) (location : SourceLocation)
    (ctx : Option EvalContext) (now : Nat) : Option BreakpointHit × BMState :=
  match findBreakpointAt bm.breakpoints location with
  | none => (none, bm)
  | some bp =>
    if bp.enabled then
      let bp := { bp with hitCount := bp.hitCount + 1, lastHit := some now }
      let bm := { bm with breakpoints := (updateFirstAt bm.breakpoints location
          (fun b => { b with hitCount := b.hitCount + 1, lastHit := some now })) }
      let pause :=
        match bp.condition with
        | some c => evaluateCondition c ctx bm.breakpoints
        | none => true
      if pause then
        (some { breakpoint := bp, context := ctx, timestamp := now }, bm)
      else
        (none, bm)
    else
      (none, bm)

/-- The JSON encoding of one breakpoint used by `exportBreakpoints`
(`JSON.stringify` drops keys whose value is `undefined`). -/
def breakpointToJson (bp : Breakpoint) : Json :=
  .jobj ([("location", Json.jobj ([("line", Json.jnum bp.location.line)] ++
            (match bp.location.column with
             | some c => [("column", Json.jnum c)]
             | none => []))),
          ("enabled", Json.jbool bp.enabled)] ++
         (match bp.condition with
          | some c => [("condition", Json.jobj [("expression", Json.jstr c.expression),
                                                ("type", Json.jstr c.ctype)])]
          | none => []) ++
         (match bp.logMessage with
          | some m => [("logMessage", Json.jstr m)]
          | none => []))

/-- `exportBreakpoints()`: the parsed form of the serialized payload. -/
def exportBreakpoints (bm : BMState) (now : Nat) : Json :=
  .jobj [("version", .jstr "1.0"),
         ("breakpoints", .jarr (bm.breakpoints.map breakpointToJson)),
         ("exportedAt", .jstr (toString now))]

/-- The structured import result `{success, imported, errors}`. -/
structure ImportResult where
  success : Bool
  imported : Nat
  errors : List String
  deriving Repr, DecidableEq

/-- Decode the `enabled` field of an imported entry. The code stores the
raw value and every later read is a boolean context, so a non-boolean
value is modelled by its truthiness; a nullish value defers to the
`?? true` default inside `addBreakpoint`. -/
def decodeEnabled : Option Json → Option Bool
  | none => none
  | some .jnull => none
  | some (.jbool b) => some b
  | some v => some v.jsTruthy

/-- Decode the `condition` field of an imported entry (falsy means no
condition; the code stores the raw object and later reads only its
`expression` and `type` fields as strings). -/
def decodeCondition : Option Json → Option BreakpointCondition
  | none => none
  | some v =>
    if v.jsTruthy then
      some { expression := match v.get "expression" with
                           | .ok (some (.jstr s)) => s
                           | _ => ""
             ctype := match v.get "type" with
                      | .ok (some (.jstr s)) => s
                      | _ => "" }
    else none

/-- Decode the `logMessage` field of an imported entry. -/
def decodeLogMessage : Option Json → Option String
  | some (.jstr s) => some s
  | _ => none

/-- Decode the stored `location` object (the line is already known to be
a number; a non-numeric or absent column is stored as absent). -/
def decodeLocation (loc : Json) (line : Int) : SourceLocation :=
  { line := line
    column := match loc.get "column" with
              | .ok (some (.jnum c)) => some c
              | _ => none }

/-- One iteration of the `importBreakpoints` entry loop: validate the
location, then add; a thrown property access lands in the per-entry
catch. Returns the accumulated (errors, imported, registry). -/
def importEntry (acc : List String × Nat × BMState) (entry : Json) (now : Nat) :
    List String × Nat × BMState :=
  let (errors, imported, bm) := acc
  match entry.get "location" with
  | .error _ => (errors ++ ["Failed to import breakpoint: TypeError"], imported, bm)
  | .ok locOpt =>
    if ¬ jsTruthyOpt locOpt then
      (errors ++ ["Invalid breakpoint location"], imported, bm)
    else
      match locOpt with
      | some loc =>
        match loc.get "line" with
        | .ok (some (.jnum line)) =>
          let enabled := decodeEnabled (match entry.get "enabled" with
                                        | .ok v => v | .error _ => none)
          let condition := decodeCondition (match entry.get "condition" with
                                            | .ok v => v | .error _ => none)
          let logMessage := decodeLogMessage (match entry.get "logMessage" with
                                              | .ok v => v | .error _ => none)
          let (_, bm) := addBreakpoint bm (decodeLocation loc line)
            enabled condition logMessage now
          (errors, imported + 1, bm)
        | _ => (errors ++ ["Invalid breakpoint location"], imported, bm)
      | none => (errors ++ ["Invalid breakpoint location"], imported, bm)

/-- The entry loop of `importBreakpoints`. -/
def importLoop (entries : List Json) (acc : List String × Nat × BMState)
    (now : Nat) : List String × Nat × BMState :=
  match entries with
  | [] => acc
  | e :: rest => importLoop rest (importEntry acc e now) now

/-- `importBreakpoints(jsonData)` on an already-parsed payload: reject a
payload whose `breakpoints` value is missing, falsy or not an array;
otherwise import each entry independently, accumulating per-entry
errors; success exactly when no error accumulated. A thrown property
access on a null payload lands in the outer catch. -/
def importBreakpoints (bm : BMState) (data : Json) (now : Nat) :
    ImportResult × BMState :=
  match data.get "breakpoints" with
  | .error e => ({ success := false, imported := 0, errors := ["Parse error: " ++ e] }, bm)
  | .ok bpsOpt =>
    if ¬ jsTruthyOpt bpsOpt then
      ({ success := false, imported := 0, errors := ["Invalid breakpoint data format"] }, bm)
    else
      match bpsOpt with
      | some (.jarr entries) =>
        let (errors, imported, bm) := importLoop entries ([], 0, bm) now
        ({ success := errors.length = 0, imported := imported, errors := errors }, bm)
      | _ =>
        ({ success := false, imported := 0, errors := ["Invalid breakpoint data format"] }, bm)

end BreakpointManager

namespace Debugger

open DebuggerStateManager BreakpointManager

/-- A call frame: name, locals, optional parent, call depth. -/
inductive Frame where
  | mk (name : String) (locals : List (String × JsVal)) (parent : Option Frame)
       (callDepth : Nat)

/-- The frame name. -/
def Frame.name : Frame → String
  | .mk n _ _ _ => n

/-- The frame locals. -/
def Frame.locals : Frame → List (String × JsVal)
  | .mk _ l _ _ => l

/-- The parent frame. -/
def Frame.parent : Frame → Option Frame
  | .mk _ _ p _ => p

/-- The call depth. -/
def Frame.callDepth : Frame → Nat
  | .mk _ _ _ d => d

/-- Frame.set: assignment always writes into the innermost locals. -/
def Frame.set (f : Frame) (k : String) (v : JsVal) : Frame :=
  match f with
  | .mk n l p d => .mk n (setAssoc l k v) p d

/-- The `<main>` frame built by the interpreter constructor / run reset. -/
def Frame.main : Frame := .mk "<main>" [] none 0

/-- The context bundle `{node, nodeDepth, frame}` passed to `before` and
`shouldPause`; of the node only its span is read. -/
structure DebuggerContext where
  nodeSpan : Option Span
  nodeDepth : Nat
  frame : Frame

/-- The mutable fields of the Debugger coordinator: the composed state
manager and breakpoint registry, the stored context of the current
pause, and the pending breakpoint hit. -/
structure DbgState where
  sm : SMState
  bm : BMState
  currentContext : Option DebuggerContext
  currentBreakpointHit : Option BreakpointHit

/-- A freshly constructed Debugger. -/
def DbgState.initial : DbgState :=
  { sm := SMState.initial, bm := BMState.initial
    currentContext := none, currentBreakpointHit := none }

/-- The state-change listener registered in the Debugger constructor: on
every recorded transition it refreshes the execution context from the
stored current context (when that context carries a span) and re-emits
events (the emission itself mutates nothing). -/
def notifyTransition (d : DbgState) (now : Nat) : DbgState :=
  match d.currentContext with
  | some c =>
    match c.nodeSpan with
    | some sp =>
      { d with sm := (updateExecutionContext d.sm sp.start.line sp.start.column
          c.nodeDepth c.frame.name now) }
    | none => d
  | none => d

/-- `Debugger.shouldPause({node, nodeDepth, frame})`: consume the
skip-next-pause flag first (the only place it is consumed); then pause
in stepping mode; then, for a node with a span, consult the breakpoint
registry. -/
def shouldPause (d : DbgState) (ctx : DebuggerContext) (now : Nat) :
    Bool × DbgState :=
  if shouldSkipPause d.sm then
    (false, { d with sm := setSkipNextPause d.sm false })
  else if d.sm.currentState = DebuggerState.stepping then
    (true, d)
  else
    match ctx.nodeSpan with
    | some sp =>
      let location : SourceLocation := { line := sp.start.line, column := some sp.start.column }
      let evalCtx : EvalContext :=
        { frameLocals := some ctx.frame.locals, envVars := none, location := some location }
      let (hit, bm) := shouldPauseAt d.bm location (some evalCtx) now
      (match hit with
       | some h => (true, { d with bm := bm, currentBreakpointHit := some h })
       | none => (false, { d with bm := bm }))
    | none => (false, d)

/-- `Debugger.before(ctx)`: decide via `shouldPause`; on a pause, store
the context for inspection, resolve the pause reason (breakpoint when a
hit is pending, step otherwise), emit the corresponding events, and
transition the state machine to paused. -/
def before (d : DbgState) (ctx : DebuggerContext) (now : Nat) : DbgState :=
  let (p, d) := shouldPause d ctx now
  if ¬ p then d
  else
    let d := { d with currentContext := some ctx }
    let (reason, d) :=
      match d.currentBreakpointHit with
      | some _ => (PauseReason.breakpoint, { d with currentBreakpointHit := none })
      | none => (PauseReason.step, d)
    let (ok, sm) := pauseExecution d.sm reason now
    let d := { d with sm := sm }
    if ok then notifyTransition d now else d

/-- `Debugger.isPaused()`. -/
def isPausedD (d : DbgState) : Bool :=
  DebuggerStateManager.isPaused d.sm

/-- `Debugger.startExecution()`. -/
def startExecutionD (d : DbgState) (now : Nat) : Bool × DbgState :=
  let (ok, sm) := DebuggerStateManager.startExecution d.sm now
  let d := { d with sm := sm }
  (ok, if ok then notifyTransition d now else d)

/-- `Debugger.resume()`: unpause via the state manager. -/
def resumeD (d : DbgState) (now : Nat) : DbgState :=
  let (ok, sm) := resumeExecution d.sm now
  let d := { d with sm := sm }
  if ok then notifyTransition d now else d

/-- `Debugger.setStepMode()`: arm stepping via `stepExecution(INTO)`. -/
def setStepModeD (d : DbgState) (now : Nat) : DbgState :=
  let (ok, sm) := stepExecution d.sm StepMode.into now
  let d := { d with sm := sm }
  if ok then notifyTransition d now else d

end Debugger

namespace Interpreter

open DebuggerStateManager BreakpointManager Debugger

/-- An expression node: NUMBER (the parser stores a parsed number),
VARIABLE, LITERAL, BINARY_EXPRESSION, or an unrecognized node kind. -/
inductive Expr where
  | enum (value : Int) (span : Option Span)
  | evar (name : String) (span : Option Span)
  | elit (value : String) (span : Option Span)
  | ebin (op : String) (left right : Expr) (span : Option Span)
  | eother (ty : String) (span : Option Span)

/-- The span carried by an expression node. -/
def Expr.span : Expr → Option Span
  | .enum _ sp => sp
  | .evar _ sp => sp
  | .elit _ sp => sp
  | .ebin _ _ _ sp => sp
  | .eother _ sp => sp

/-- The `type` tag string of an expression node. -/
def Expr.tyName : Expr → String
  | .enum _ _ => "NUMBER"
  | .evar _ _ => "VARIABLE"
  | .elit _ _ => "LITERAL"
  | .ebin _ _ _ _ => "BINARY_EXPRESSION"
  | .eother t _ => t

/-- A statement node. The IF condition is the field bundle of the
BinaryExpressionNode the parser builds (operator, operands, span); the
assignment variable contributes only its name. -/
inductive Stmt where
  | sprint (children : Option (List Expr)) (span : Option Span)
  | sinput (span : Option Span)
  | sassign (varName : Option String) (expression : Option Expr) (span : Option Span)
  | sif (condOp : String) (condLeft condRight : Expr) (condSpan : Option Span)
        (thenBranch : List Stmt) (elseBranch : Option (List Stmt)) (span : Option Span)
  | sgoto (targetLine : Int) (span : Option Span)
  | send (span : Option Span)
  | sother (ty : String) (span : Option Span)

/-- The span carried by a statement node. -/
def Stmt.span : Stmt → Option Span
  | .sprint _ sp => sp
  | .sinput sp => sp
  | .sassign _ _ sp => sp
  | .sif _ _ _ _ _ _ sp => sp
  | .sgoto _ sp => sp
  | .send sp => sp
  | .sother _ sp => sp

/-- The `type` tag string of a statement node. -/
def Stmt.tyName : Stmt → String
  | .sprint _ _ => "PRINT_STATEMENT"
  | .sinput _ => "INPUT_STATEMENT"
  | .sassign _ _ _ => "ASSIGNMENT_STATEMENT"
  | .sif _ _ _ _ _ _ _ => "IF_STATEMENT"
  | .sgoto _ _ => "GOTO_STATEMENT"
  | .send _ => "END"
  | .sother t _ => t

/-- A top-level body element, normally a STATEMENT node carrying its
line number and a single child statement. -/
structure Line where
  ty : String
  lineNumber : Option Int
  children : Option (List Stmt)
  span : Option Span

/-- The mutable fields of an Interpreter instance, including the
continuation state (current AST body, statement cursor, in-flight
flag). The main frame locals alias `env.vars` in the TS code; both are
reset to empty together and every write updates both, so they are
carried as separate values here. -/
structure InterpState where
  output : String
  envVars : List (String × JsVal)
  envLines : List (String × Option Stmt)
  currentFrame : Frame
  nodeDepth : Nat
  currentAst : Option (List Line)
  currentLineIndex : Nat
  isExecuting : Bool

/-- JS `??` on looked-up values. -/
def jsNullish (a b : Option JsVal) : Option JsVal :=
  match a with
  | some v => some v
  | none => b

/-- A JS number that may be `NaN` back into a stored value. -/
def numToJsVal : Option Int → JsVal
  | some n => .vnum n
  | none => .vnan

/-- String interpolation of a possibly-`NaN` number. -/
def numToString (v : Option Int) : String :=
  (numToJsVal v).jsToString

/-- JS truthiness of a possibly-`NaN` number (`0` and `NaN` falsy). -/
def numTruthy : Option Int → Bool
  | some n => n ≠ 0
  | none => false

/-- The switch at the end of `executeBinaryExpression`: `NaN` operands
propagate through arithmetic and make every comparison false; division
by exactly zero is guarded to `0`, and an unknown operator yields `0`.
Division is modelled by integer division. -/
def applyBinOp (op : String) (l r : Option Int) : Option Int :=
  if op = "+" then match l, r with | some a, some b => some (a + b) | _, _ => none
  else if op = "-" then match l, r with | some a, some b => some (a - b) | _, _ => none
  else if op = "*" then match l, r with | some a, some b => some (a * b) | _, _ => none
  else if op = "/" then
    match r with
    | some b => if b = 0 then some 0 else match l with | some a => some (a / b) | none => none
    | none => none
  else if op = "=" then some (match l, r with | some a, some b => if a = b then 1 else 0 | _, _ => 0)
  else if op = "<" then some (match l, r with | some a, some b => if a < b then 1 else 0 | _, _ => 0)
  else if op = ">" then some (match l, r with | some a, some b => if a > b then 1 else 0 | _, _ => 0)
  else some 0

/-- Reading a variable as a number inside `executeBinaryExpression`:
`parseFloat(frame.locals[name] ?? env.vars[name] ?? zeroString)`. -/
def varNum (s : InterpState) (name : String) : Option Int :=
  jsParseFloatVal ((jsNullish (lookupAssoc s.currentFrame.locals name)
    (lookupAssoc s.envVars name)).getD (.vstr "0"))

/-- `executeBinaryExpression(expr)`: a before hook on the node, then on
each operand before evaluating it (numbers pass through, variables are
parsed from the environment, nested binaries recurse, anything else
leaves the initialized `0`), with the node-depth counter bumped around
the operand evaluation. Only BINARY_EXPRESSION nodes reach this
function at the call sites; the catch-all branch is unreachable. -/
def execBin (e : Expr) (s : InterpState) (d : DbgState) (now : Nat) :
    (InterpState × DbgState) × Option Int :=
  match e with
  | .ebin op l r sp =>
    let d := before d { nodeSpan := sp, nodeDepth := s.nodeDepth, frame := s.currentFrame } now
    let s := { s with nodeDepth := s.nodeDepth + 1 }
    let d := before d { nodeSpan := l.span, nodeDepth := s.nodeDepth, frame := s.currentFrame } now
    let res :=
      match l with
      | .enum v _ => ((s, d), some v)
      | .evar n _ => ((s, d), varNum s n)
      | .ebin .. => execBin l s d now
      | _ => ((s, d), some 0)
    let s := res.1.1
    let d := res.1.2
    let lv := res.2
    let d := before d { nodeSpan := r.span, nodeDepth := s.nodeDepth, frame := s.currentFrame } now
    let res :=
      match r with
      | .enum v _ => ((s, d), some v)
      | .evar n _ => ((s, d), varNum s n)
      | .ebin .. => execBin r s d now
      | _ => ((s, d), some 0)
    let s := res.1.1
    let d := res.1.2
    let rv := res.2
    let s := { s with nodeDepth := s.nodeDepth - 1 }
    ((s, d), applyBinOp op lv rv)
  | _ => ((s, d), some 0)

/-- The child loop of `executePrintStatement`: per child, bump the
depth, run the before hook, render the child, restore the depth. -/
def execPrintChildren (cs : List Expr) (s : InterpState) (d : DbgState) (now : Nat) :
    (InterpState × DbgState) × String :=
  match cs with
  | [] => ((s, d), "")
  | c :: rest =>
    let s := { s with nodeDepth := s.nodeDepth + 1 }
    let d := before d { nodeSpan := c.span, nodeDepth := s.nodeDepth, frame := s.currentFrame } now
    let res :=
      match c with
      | .elit v _ => ((s, d), v)
      | .evar n _ =>
        ((s, d), ((jsNullish (lookupAssoc s.currentFrame.locals n)
          (lookupAssoc s.envVars n)).getD (.vstr "<undefined>")).jsToString)
      | .enum v _ => ((s, d), toString v)
      | .ebin .. =>
        let r := execBin c s d now
        (r.1, numToString r.2)
      | .eother _ _ => ((s, d), "<unknown>")
    let s := res.1.1
    let d := res.1.2
    let piece := res.2
    let s := { s with nodeDepth := s.nodeDepth - 1 }
    let r2 := execPrintChildren rest s d now
    (r2.1, piece ++ r2.2)

/-- `executePrintStatement(stmt)`: its own before hook on the statement,
then the child loop when children are present. -/
def execPrint (children : Option (List Expr)) (sp : Option Span)
    (s : InterpState) (d : DbgState) (now : Nat) : (InterpState × DbgState) × String :=
  let d := before d { nodeSpan := sp, nodeDepth := s.nodeDepth, frame := s.currentFrame } now
  match children with
  | some cs => execPrintChildren cs s d now
  | none => ((s, d), "")

/-- `executeAssignmentStatement(node)`: before hooks on the statement
and on the value expression; numbers and literals are stored into both
`env.vars` and the current frame, binary expressions are evaluated
first, any other value shape is reported unsupported, and a missing
variable or expression node is malformed. -/
def execAssign (varName : Option String) (e : Option Expr) (sp : Option Span)
    (s : InterpState) (d : DbgState) (now : Nat) : (InterpState × DbgState) × String :=
  let d := before d { nodeSpan := sp, nodeDepth := s.nodeDepth, frame := s.currentFrame } now
  match varName, e with
  | some name, some v =>
    let s := { s with nodeDepth := s.nodeDepth + 1 }
    let d := before d { nodeSpan := v.span, nodeDepth := s.nodeDepth, frame := s.currentFrame } now
    let res :=
      match v with
      | .enum n _ =>
        let s := { s with envVars := setAssoc s.envVars name (.vnum n),
                          currentFrame := s.currentFrame.set name (.vnum n) }
        ((s, d), "Assigned " ++ toString n ++ " to variable $" ++ name ++ ".")
      | .elit t _ =>
        let s := { s with envVars := setAssoc s.envVars name (.vstr t),
                          currentFrame := s.currentFrame.set name (.vstr t) }
        ((s, d), "Assigned \"" ++ t ++ "\" to variable $" ++ name ++ ".")
      | .ebin .. =>
        let r := execBin v s d now
        let s := r.1.1
        let d := r.1.2
        let jv := numToJsVal r.2
        let s := { s with envVars := setAssoc s.envVars name jv,
                          currentFrame := s.currentFrame.set name jv }
        ((s, d), "Assigned " ++ numToString r.2 ++ " to variable $" ++ name ++ ".")
      | _ => ((s, d), "Unsupported expression type in assignment: " ++ v.tyName ++ ".")
    let s := res.1.1
    let d := res.1.2
    let s := { s with nodeDepth := s.nodeDepth - 1 }
    ((s, d), res.2)
  | _, _ => ((s, d), "Malformed ASSIGNMENT_STATEMENT node.")

/-- The statement loop inside an IF branch: only print and assignment
statements execute; anything else is reported unsupported. -/
def execBranchStmts (stmts : List Stmt) (branch : String)
    (s : InterpState) (d : DbgState) (now : Nat) : (InterpState × DbgState) × String :=
  match stmts with
  | [] => ((s, d), "")
  | st :: rest =>
    let res :=
      match st with
      | .sprint c sp =>
        let r := execPrint c sp s d now
        (r.1, r.2 ++ "\n")
      | .sassign v e sp =>
        let r := execAssign v e sp s d now
        (r.1, r.2 ++ "\n")
      | _ => ((s, d), "Unsupported statement type in IF " ++ branch ++ " branch: " ++ st.tyName ++ "\n")
    let r2 := execBranchStmts rest branch res.1.1 res.1.2 now
    (r2.1, res.2 ++ r2.2)

/-- `executeIfStatement(node)`: before hook, evaluate the condition with
the depth bumped, then run the taken branch inside a fresh child frame
(restored afterwards). -/
def execIf (condOp : String) (condL condR : Expr) (condSpan : Option Span)
    (thenB : List Stmt) (elseB : Option (List Stmt)) (sp : Option Span)
    (s : InterpState) (d : DbgState) (now : Nat) : (InterpState × DbgState) × String :=
  let d := before d { nodeSpan := sp, nodeDepth := s.nodeDepth, frame := s.currentFrame } now
  let s := { s with nodeDepth := s.nodeDepth + 1 }
  let r := execBin (.ebin condOp condL condR condSpan) s d now
  let s := { r.1.1 with nodeDepth := r.1.1.nodeDepth - 1 }
  let d := r.1.2
  if numTruthy r.2 then
    let oldFrame := s.currentFrame
    let s := { s with currentFrame := Frame.mk "if-then" [] (some oldFrame) (oldFrame.callDepth + 1) }
    let s := { s with nodeDepth := s.nodeDepth + 1 }
    let rb := execBranchStmts thenB "THEN" s d now
    let s := { rb.1.1 with nodeDepth := rb.1.1.nodeDepth - 1, currentFrame := oldFrame }
    ((s, rb.1.2), "IF condition true, executing THEN branch.\n" ++ rb.2)
  else
    match elseB with
    | some stmts =>
      let oldFrame := s.currentFrame
      let s := { s with currentFrame := Frame.mk "if-else" [] (some oldFrame) (oldFrame.callDepth + 1) }
      let s := { s with nodeDepth := s.nodeDepth + 1 }
      let rb := execBranchStmts stmts "ELSE" s d now
      let s := { rb.1.1 with nodeDepth := rb.1.1.nodeDepth - 1, currentFrame := oldFrame }
      ((s, rb.1.2), "IF condition false.\nExecuting ELSE branch.\n" ++ rb.2)
    | none => ((s, d), "IF condition false.\n")

/-- `executeGotoStatement(node)`: before hook and a message (jumps are
not implemented). -/
def execGoto (target : Int) (sp : Option Span)
    (s : InterpState) (d : DbgState) (now : Nat) : (InterpState × DbgState) × String :=
  let d := before d { nodeSpan := sp, nodeDepth := s.nodeDepth, frame := s.currentFrame } now
  ((s, d), "GOTO statement to line " ++ toString target ++ " encountered. (Jump handling not implemented)")

/-- `executeStatement(stmt)`: before hook on the statement, then the
dispatch switch, each arm appending its rendering to the output. -/
def execStmt (st : Stmt) (s : InterpState) (d : DbgState) (now : Nat) :
    InterpState × DbgState :=
  let d := before d { nodeSpan := st.span, nodeDepth := s.nodeDepth, frame := s.currentFrame } now
  match st with
  | .sprint c sp =>
    let r := execPrint c sp s d now
    ({ r.1.1 with output := r.1.1.output ++ r.2 ++ "<br/>\n" }, r.1.2)
  | .sinput _ =>
    ({ s with output := s.output ++ "INPUT statement encountered. (Input handling not implemented)<br/>\n" }, d)
  | .sassign v e sp =>
    let r := execAssign v e sp s d now
    ({ r.1.1 with output := r.1.1.output ++ r.2 ++ "<br/>\n" }, r.1.2)
  | .sif op l rr csp t el sp =>
    let r := execIf op l rr csp t el sp s d now
    ({ r.1.1 with output := r.1.1.output ++ r.2 ++ "<br/>\n" }, r.1.2)
  | .sgoto target sp =>
    let r := execGoto target sp s d now
    ({ r.1.1 with output := r.1.1.output ++ r.2 ++ "<br/>\n" }, r.1.2)
  | .send _ =>
    ({ s with output := s.output ++ "END statement encountered. Terminating execution.<br/>\n" }, d)
  | .sother ty _ =>
    ({ s with output := s.output ++ "Unsupported statement type: " ++ ty ++ "<br/>\n" }, d)

/-- `executeLine(line)`: before hook on the line, an early return when
the debugger paused during that hook, then the STATEMENT bookkeeping
and the dispatch to `executeStatement` with the depth bumped. Nothing
in the modelled fragment throws, so the try/catch around the dispatch
is never entered. -/
def executeLine (s : InterpState) (d : DbgState) (ln : Line) (now : Nat) :
    InterpState × DbgState :=
  let d := before d { nodeSpan := ln.span, nodeDepth := s.nodeDepth, frame := s.currentFrame } now
  if isPausedD d then (s, d)
  else if ln.ty ≠ "STATEMENT" then
    ({ s with output := s.output ++ "Unsupported AST node type: " ++ ln.ty ++ "\n" }, d)
  else
    let lineNumber := match ln.lineNumber with | some n => toString n | none => "<unknown>"
    let s := { s with output := s.output ++ lineNumber ++ ": " }
    let stmt := ln.children.bind List.head?
    let s := { s with envLines := setAssoc s.envLines lineNumber stmt }
    match stmt with
    | none => ({ s with output := s.output ++ "Empty STATEMENT node encountered. (Malformed AST)<br/>\n" }, d)
    | some st =>
      let s := { s with nodeDepth := s.nodeDepth + 1 }
      let r := execStmt st s d now
      ({ r.1 with nodeDepth := r.1.nodeDepth - 1 }, r.2)

/-- The pause banner appended by the driver loops. -/
def pauseMsg : String :=
  "<br/><em>Execution paused. Click Continue or Step to proceed.</em><br/>\n"

/-- The driver loop shared verbatim by `run` and `resume`: iterate the
statement indices from the persisted cursor; set the cursor, execute
the line, and on an observed pause return immediately with the banner
appended and without advancing the cursor; on falling off the end,
clear the continuation state. -/
def runFrom (body : List Line) (s : InterpState) (d : DbgState) (i : Nat)
    (now : Nat) : InterpState × DbgState :=
  if h : i < body.length then
    let s := { s with currentLineIndex := i }
    let r := executeLine s d (body.get ⟨i, h⟩) now
    if isPausedD r.2 then
      ({ r.1 with output := r.1.output ++ pauseMsg }, r.2)
    else
      runFrom body r.1 r.2 (i + 1) now
  else
    ({ s with isExecuting := false, currentAst := none, currentLineIndex := 0 }, d)
termination_by body.length - i
decreasing_by simp_wf; omega

/-- `Interpreter.run(ast)`: reset the session on a fresh execution (the
new main frame aliases the freshly emptied `env.vars`), mark execution
in flight, start the debugger, and enter the driver loop at the
persisted cursor over the persisted body. -/
def run (s : InterpState) (d : DbgState) (ast : List Line) (now : Nat) :
    InterpState × DbgState :=
  let s :=
    if ¬ s.isExecuting then
      { s with output := "", envLines := [], envVars := [], nodeDepth := 0,
               currentLineIndex := 0, currentAst := some ast,
               currentFrame := Frame.mk "<main>" [] none 0 }
    else s
  let s := { s with isExecuting := true }
  let r := startExecutionD d now
  let d := r.2
  let body := s.currentAst.getD []
  runFrom body s d s.currentLineIndex now

/-- The regex strip of the pause banner at the head of `resume` and
`step` (the pattern is anchored at the end of the output). -/
def stripPauseMsg (out : String) : String :=
  if out.endsWith pauseMsg then out.dropRight pauseMsg.length else out

/-- `Interpreter.resume()`: re-enter the shared driver loop at the
persisted cursor (the skip flag set by `resumeExecution` carries past
the breakpoint that paused); throws when no execution is in flight. -/
def resume (s : InterpState) (d : DbgState) (now : Nat) :
    Except String (InterpState × DbgState) :=
  if ¬ s.isExecuting ∨ s.currentAst.isNone then
    .error "No execution to resume"
  else
    let s := { s with output := stripPauseMsg s.output }
    let body := s.currentAst.getD []
    .ok (runFrom body s d s.currentLineIndex now)

/-- `Interpreter.step()`: unpause, execute the single line at the
cursor, advance the cursor, ask the debugger to re-arm stepping, and
either finish (clearing the continuation state) or append the pause
banner; throws when no execution is in flight. -/
def step (s : InterpState) (d : DbgState) (now : Nat) :
    Except String (InterpState × DbgState) :=
  if ¬ s.isExecuting ∨ s.currentAst.isNone then
    .error "No execution to step"
  else
    let s := { s with output := stripPauseMsg s.output }
    let body := s.currentAst.getD []
    if h : s.currentLineIndex < body.length then
      let d := resumeD d now
      let r := executeLine s d (body.get ⟨s.currentLineIndex, h⟩) now
      let s := { r.1 with currentLineIndex := r.1.currentLineIndex + 1 }
      let d := setStepModeD r.2 now
      if Nat.ble body.length s.currentLineIndex then
        Except.ok ({ s with isExecuting := false, currentAst := none, currentLineIndex := 0 }, d)
      else
        Except.ok ({ s with output := s.output ++ pauseMsg }, d)
    else
      Except.ok (s, d)

end Interpreter



/-! ## Derived projections and payload predicates -/

namespace BreakpointManager

/-- The persisted identity of a breakpoint under export/import: its
(location, enabled, condition, logMessage) tuple (ids and timestamps
are regenerated on import). -/
def bpTuple (b : Breakpoint) :
    SourceLocation × Bool × Option BreakpointCondition × Option String :=
  (b.location, b.enabled, b.condition, b.logMessage)

/-- Whether a payload carries an array under the `breakpoints` key
(false exactly when the key is missing, unreadable, or bound to a
non-array value). -/
def breakpointsFieldArray (j : Json) : Bool :=
  match j.get "breakpoints" with
  | .ok (some (.jarr _)) => true
  | _ => false

/-- Whether one entry of a `breakpoints` array passes the per-entry
validation of `importBreakpoints`: a readable, truthy `location` whose
`line` is a number. -/
def entryWellFormed (entry : Json) : Bool :=
  match entry.get "location" with
  | .error _ => false
  | .ok locOpt =>
    jsTruthyOpt locOpt &&
      (match locOpt with
       | some loc =>
         (match loc.get "line" with
          | .ok (some (.jnum _)) => true
          | _ => false)
       | none => false)

end BreakpointManager


/-! ## Sample values used by witnesses and counterexamples -/

namespace Samples

open DebuggerStateManager BreakpointManager Debugger Interpreter

/-- Sample frame-free suspension-check context. -/
def ctx0 : DebuggerContext :=
  { nodeSpan := none, nodeDepth := 0, frame := Frame.main }

/-- Sample paused state-manager state. -/
def smPausedS : SMState :=
  { currentState := .paused, stepMode := .run, pauseReason := some .breakpoint
    executionContext := none, stateHistory := [], skipNextPause := false }

/-- Sample coordinator state with the skip flag set after a resume. -/
def dSkip : DbgState :=
  { sm := { currentState := .running, stepMode := .run, pauseReason := none
            executionContext := none, stateHistory := [], skipNextPause := true }
    bm := BMState.initial, currentContext := none, currentBreakpointHit := none }

/-- Sample idle state-manager state. -/
def smIdleS : SMState :=
  { currentState := .idle, stepMode := .run, pauseReason := none
    executionContext := none, stateHistory := [], skipNextPause := false }

/-- Modelled from the spec: the adjacency table written in section 4.1
of the specification (and likewise in the repository DEBUGGER.md),
whose row for Running additionally permits Stepping. -/
def specStateTransitions : DebuggerState → List DebuggerState
  | .idle => [.running, .stepping]
  | .running => [.paused, .stepping, .error, .terminated, .idle]
  | .paused => [.running, .stepping, .terminated, .idle]
  | .stepping => [.paused, .running, .error, .terminated]
  | .error => [.idle, .terminated]
  | .terminated => [.idle]

/-- Sample running state-manager state. -/
def smRunningS : SMState :=
  { currentState := .running, stepMode := .run, pauseReason := none
    executionContext := none, stateHistory := [], skipNextPause := false }


/-- Sample breakpoint location. -/
def locS : SourceLocation := { line := 1, column := some 0 }

/-- Sample disabled breakpoint at `locS`. -/
def bpDisabledS : Breakpoint :=
  { id := "bp_1_0", location := locS, enabled := false, condition := none
    hitCount := 0, createdAt := 0, lastHit := none, logMessage := none }

/-- Sample enabled unconditioned breakpoint at `locS`. -/
def bpEnabledS : Breakpoint :=
  { id := "bp_2_0", location := locS, enabled := true, condition := none
    hitCount := 0, createdAt := 0, lastHit := none, logMessage := none }

/-- Registry holding two breakpoints at the same location, the disabled
one registered first (the registry never enforces uniqueness). -/
def bmDup : BMState := { breakpoints := [bpDisabledS, bpEnabledS], nextId := 3 }

/-- Registry holding a single enabled breakpoint. -/
def bmSingle : BMState := { breakpoints := [bpEnabledS], nextId := 2 }

/-- Sample enabled breakpoint carrying a hit-count condition. -/
def bpHitCondS : Breakpoint :=
  { id := "bp_1_0", location := locS, enabled := true
    condition := some { expression := "2", ctype := "hitCount" }
    hitCount := 0, createdAt := 0, lastHit := none, logMessage := none }

/-- Registry holding only `bpHitCondS`. -/
def bmHitCond : BMState := { breakpoints := [bpHitCondS], nextId := 2 }

/-- Sample enabled log-only breakpoint. -/
def bpLogCondS : Breakpoint :=
  { id := "bp_1_0", location := locS, enabled := true
    condition := some { expression := "reached", ctype := "logMessage" }
    hitCount := 0, createdAt := 0, lastHit := none, logMessage := none }

/-- Registry holding only `bpLogCondS`. -/
def bmLogCond : BMState := { breakpoints := [bpLogCondS], nextId := 2 }

/-- The spec scenario payload whose breakpoints value is a string. -/
def jNotArr : Json := .jobj [("breakpoints", .jstr "not-an-array")]

/-- A well-formed import entry (numeric location line). -/
def entryGood : Json :=
  .jobj [("location", .jobj [("line", .jnum 20), ("column", .jnum 0)]),
         ("enabled", .jbool true)]

/-- A malformed import entry (location.line is not a number). -/
def entryBad : Json :=
  .jobj [("location", .jobj [("line", .jstr "x")])]



/-- A span on the given source line. -/
def spanAt (n : Int) : Span :=
  { start := { line := n, column := 0 }, stop := { line := n, column := 2 } }

/-- A STATEMENT line holding a single END statement. -/
def lineEndAt (n : Int) : Line :=
  { ty := "STATEMENT", lineNumber := some n
    children := some [Stmt.send (some (spanAt n))], span := some (spanAt n) }

/-- A three-statement program body. -/
def body3 : List Line := [lineEndAt 10, lineEndAt 20, lineEndAt 30]

/-- A one-statement program body. -/
def body1 : List Line := [lineEndAt 10]

/-- Coordinator state paused at a breakpoint. -/
def dPausedS : DbgState :=
  { sm := smPausedS, bm := BMState.initial
    currentContext := none, currentBreakpointHit := none }

/-- Coordinator state armed in stepping mode. -/
def dSteppingS : DbgState :=
  { sm := { currentState := .stepping, stepMode := .into, pauseReason := none
            executionContext := none, stateHistory := [], skipNextPause := false }
    bm := BMState.initial, currentContext := none, currentBreakpointHit := none }

/-- Interpreter state with an execution of `body3` in flight at the
first statement. -/
def sFlight : InterpState :=
  { output := "", envVars := [], envLines := [], currentFrame := Frame.main
    nodeDepth := 0, currentAst := some body3, currentLineIndex := 0, isExecuting := true }

/-- Interpreter state with an execution of `body1` in flight at the
first statement. -/
def sRun : InterpState :=
  { output := "", envVars := [], envLines := [], currentFrame := Frame.main
    nodeDepth := 0, currentAst := some body1, currentLineIndex := 0, isExecuting := true }

/-- One `Interpreter.step()` call on an interpreter/debugger pair (the
calls below never hit the no-execution throw). -/
def stepResult (p : InterpState × DbgState) (now : Nat) : InterpState × DbgState :=
  match Interpreter.step p.1 p.2 now with
  | .ok r => r
  | .error _ => p


end Samples

/-! ## Helper lemmas -/

namespace DebuggerStateManager

/-- A transition never touches the skip-next-pause flag. -/
theorem transitionTo_skipNextPause (s : SMState) (t : DebuggerState)
    (r : Option String) (now : Nat) :
    ((transitionTo s t r now).2).skipNextPause = s.skipNextPause := by
  simp only [transitionTo, recordTransition]
  split
  · split <;> split <;> rfl
  · rfl

/-- A transition listed in the code table succeeds and lands in the
target state. -/
theorem transitionTo_mem (s : SMState) (t : DebuggerState) (r : Option String)
    (now : Nat) (h : t ∈ STATE_TRANSITIONS s.currentState) :
    (transitionTo s t r now).1 = true ∧
      ((transitionTo s t r now).2).currentState = t := by
  have hv : isValidTransition s.currentState t = true :=
    List.elem_iff.mpr h
  simp only [transitionTo, hv, if_true, recordTransition]
  refine ⟨trivial, ?_⟩
  split <;> rfl

/-- A transition absent from the code table is rejected without any
state change. -/
theorem transitionTo_not_mem (s : SMState) (t : DebuggerState)
    (r : Option String) (now : Nat) (h : t ∉ STATE_TRANSITIONS s.currentState) :
    transitionTo s t r now = (false, s) := by
  have hv : isValidTransition s.currentState t = false := by
    simp [isValidTransition, List.elem_iff, h]
  simp [transitionTo, hv]

end DebuggerStateManager

/-! ## Claim theorems -/

open DebuggerStateManager BreakpointManager Debugger Interpreter Samples

/-- C1: with the skip-next-pause flag set (as `resumeExecution` sets it
from the paused state), the very next call to the coordinator
suspension check `Debugger.shouldPause` does not pause and its only
effect is clearing the flag, for every breakpoint configuration and
step mode; a second consecutive call behaves exactly as if the flag had
never been set; and `transitionTo` itself never clears the flag — only
that first suspension check does. -/
theorem claim_C1_skip_next_pause :
    (∀ (d : DbgState) (ctx : DebuggerContext) (now : Nat),
      d.sm.skipNextPause = true →
        Debugger.shouldPause d ctx now =
          (false, { d with sm := { d.sm with skipNextPause := false } })) ∧
    (∀ (d : DbgState) (ctx ctx2 : DebuggerContext) (now now2 : Nat),
      d.sm.skipNextPause = true →
        Debugger.shouldPause (Debugger.shouldPause d ctx now).2 ctx2 now2 =
          Debugger.shouldPause { d with sm := { d.sm with skipNextPause := false } } ctx2 now2) ∧
    (∀ (s : SMState) (t : DebuggerState) (r : Option String) (now : Nat),
      ((DebuggerStateManager.transitionTo s t r now).2).skipNextPause = s.skipNextPause) ∧
    (∀ (s : SMState) (now : Nat), s.currentState = DebuggerState.paused →
      ((DebuggerStateManager.resumeExecution s now).2).skipNextPause = true) := by
  refine ⟨?_, ?_, ?_, ?_⟩
  · intro d ctx now h
    simp [Debugger.shouldPause, shouldSkipPause, setSkipNextPause, h]
  · intro d ctx ctx2 now now2 h
    have h1 : Debugger.shouldPause d ctx now =
        (false, { d with sm := { d.sm with skipNextPause := false } }) := by
      simp [Debugger.shouldPause, shouldSkipPause, setSkipNextPause, h]
    rw [h1]
  · intro s t r now
    exact transitionTo_skipNextPause s t r now
  · intro s now h
    unfold resumeExecution
    rw [if_pos h, transitionTo_skipNextPause]







/-- C1 witness at concrete inputs. -/
theorem claim_C1_skip_next_pause_witness :
    (dSkip.sm.skipNextPause = true ∧
      Debugger.shouldPause dSkip ctx0 7 =
        (false, { dSkip with sm := { dSkip.sm with skipNextPause := false } })) ∧
    (Debugger.shouldPause (Debugger.shouldPause dSkip ctx0 7).2 ctx0 8 =
      Debugger.shouldPause { dSkip with sm := { dSkip.sm with skipNextPause := false } } ctx0 8) ∧
    (((DebuggerStateManager.transitionTo smPausedS .running none 3).2).skipNextPause =
      smPausedS.skipNextPause) ∧
    (smPausedS.currentState = DebuggerState.paused ∧
      ((DebuggerStateManager.resumeExecution smPausedS 3).2).skipNextPause = true) :=
  ⟨⟨rfl, claim_C1_skip_next_pause.1 dSkip ctx0 7 rfl⟩,
   claim_C1_skip_next_pause.2.1 dSkip ctx0 ctx0 7 8 rfl,
   claim_C1_skip_next_pause.2.2.1 smPausedS .running none 3,
   rfl, claim_C1_skip_next_pause.2.2.2 smPausedS 3 rfl⟩

/-- C2: a transition to a target absent from the adjacency row of the
current state returns false and leaves the whole state unchanged (a
warning-level side effect only, never an exception — the operation is a
total function). -/
theorem claim_C2_invalid_transition_rejected :
    ∀ (s : SMState) (t : DebuggerState) (r : Option String) (now : Nat),
      t ∉ DebuggerStateManager.STATE_TRANSITIONS s.currentState →
        DebuggerStateManager.transitionTo s t r now = (false, s) :=
  fun s t r now h => transitionTo_not_mem s t r now h



/-- C2 witness: pausing from idle is forbidden and rejected. -/
theorem claim_C2_invalid_transition_rejected_witness :
    DebuggerState.paused ∉ DebuggerStateManager.STATE_TRANSITIONS smIdleS.currentState ∧
      DebuggerStateManager.transitionTo smIdleS .paused none 5 = (false, smIdleS) :=
  ⟨by decide, claim_C2_invalid_transition_rejected smIdleS .paused none 5 (by decide)⟩





/-- C3: the spec table permits Running to Stepping, but the code table
omits Stepping from the Running row, so `transitionTo(Stepping)` from
Running is rejected with the state unchanged — the code disagrees with
its own documented transition matrix. Every transition the code table
does list succeeds and lands in the target state. -/
theorem claim_C3_running_to_stepping_rejected :
    (DebuggerState.stepping ∈ specStateTransitions .running ∧
     DebuggerState.stepping ∉ DebuggerStateManager.STATE_TRANSITIONS .running ∧
     DebuggerStateManager.transitionTo smRunningS .stepping none 4 = (false, smRunningS)) ∧
    (∀ (s : SMState) (t : DebuggerState) (r : Option String) (now : Nat),
      t ∈ DebuggerStateManager.STATE_TRANSITIONS s.currentState →
        (DebuggerStateManager.transitionTo s t r now).1 = true ∧
          ((DebuggerStateManager.transitionTo s t r now).2).currentState = t) := by
  refine ⟨⟨by decide, by decide, ?_⟩, ?_⟩
  · exact transitionTo_not_mem smRunningS .stepping none 4 (by decide)
  · intro s t r now h
    exact transitionTo_mem s t r now h

/-- C3 witness: a concrete permitted transition (paused to running)
succeeds. -/
theorem claim_C3_running_to_stepping_rejected_witness :
    DebuggerState.running ∈ DebuggerStateManager.STATE_TRANSITIONS smPausedS.currentState ∧
      (DebuggerStateManager.transitionTo smPausedS .running none 6).1 = true ∧
      ((DebuggerStateManager.transitionTo smPausedS .running none 6).2).currentState =
        DebuggerState.running :=
  ⟨by decide, claim_C3_running_to_stepping_rejected.2 smPausedS .running none 6 (by decide)⟩

namespace BreakpointManager

/-- Updating the first location match is visible to the next lookup at
that location. -/
theorem findBreakpointAt_updateFirstAt (bps : List Breakpoint)
    (loc : SourceLocation) (f : Breakpoint → Breakpoint) (bp : Breakpoint)
    (hf : ∀ b, (f b).location = b.location)
    (h : findBreakpointAt bps loc = some bp) :
    findBreakpointAt (updateFirstAt bps loc f) loc = some (f bp) := by
  induction bps with
  | nil => simp [findBreakpointAt] at h
  | cons b rest ih =>
    by_cases hm : locationsMatch b.location loc = true
    · simp only [findBreakpointAt, hm, if_true] at h
      cases h
      simp [updateFirstAt, hm, findBreakpointAt, hf]
    · simp only [findBreakpointAt, hm] at h
      simp only [updateFirstAt, hm, if_false, if_neg, findBreakpointAt]
      simpa [hm] using ih h

end BreakpointManager

/-- C6 counterexample: the registry never enforces one breakpoint per
location; with a disabled breakpoint registered before an enabled one
at the same location, `shouldPauseAt` finds the disabled one first and
returns null with no hit count changed — the enabled breakpoint at the
queried location is not incremented, contrary to the claim. -/
theorem claim_C6_counterexample :
    (bpEnabledS ∈ bmDup.breakpoints ∧ bpEnabledS.enabled = true ∧
      bpEnabledS.location = locS ∧ bpEnabledS.hitCount = 0) ∧
    BreakpointManager.shouldPauseAt bmDup locS none 5 = (none, bmDup) := by
  constructor
  · exact ⟨by decide, by decide, by decide, by decide⟩
  · decide

/-- C6 (amended): for the first-registered breakpoint at the queried
location: when none exists or that first match is disabled, one call to
`shouldPauseAt` returns null and changes no hit count; when it is
enabled, the call increments exactly that breakpoint's hit count by 1
and stamps its last-hit time — the registry is updated this way no
matter what the condition then decides, since the update happens before
the condition is evaluated. -/
theorem claim_C6_hit_count_amended :
    ∀ (bm : BMState) (loc : SourceLocation) (ctx : Option EvalContext) (now : Nat),
      (findBreakpointAt bm.breakpoints loc = none →
        BreakpointManager.shouldPauseAt bm loc ctx now = (none, bm)) ∧
      (∀ bp, findBreakpointAt bm.breakpoints loc = some bp → bp.enabled = false →
        BreakpointManager.shouldPauseAt bm loc ctx now = (none, bm)) ∧
      (∀ bp, findBreakpointAt bm.breakpoints loc = some bp → bp.enabled = true →
        ((BreakpointManager.shouldPauseAt bm loc ctx now).2 =
          { bm with breakpoints := (updateFirstAt bm.breakpoints loc
              (fun b => { b with hitCount := b.hitCount + 1, lastHit := some now })) } ∧
         findBreakpointAt ((BreakpointManager.shouldPauseAt bm loc ctx now).2).breakpoints loc =
           some { bp with hitCount := bp.hitCount + 1, lastHit := some now })) := by
  intro bm loc ctx now
  refine ⟨?_, ?_, ?_⟩
  · intro h
    simp [BreakpointManager.shouldPauseAt, h]
  · intro bp h he
    simp [BreakpointManager.shouldPauseAt, h, he]
  · intro bp h he
    have h2 : (BreakpointManager.shouldPauseAt bm loc ctx now).2 =
        { bm with breakpoints := (updateFirstAt bm.breakpoints loc
            (fun b => { b with hitCount := b.hitCount + 1, lastHit := some now })) } := by
      simp only [BreakpointManager.shouldPauseAt, h, he, if_true]
      split <;> rfl
    refine ⟨h2, ?_⟩
    rw [h2]
    exact findBreakpointAt_updateFirstAt bm.breakpoints loc _ bp (fun b => rfl) h

/-- C6 witness: a single enabled breakpoint is found, its count is
bumped and stamped; an empty registry yields null unchanged. -/
theorem claim_C6_hit_count_amended_witness :
    (findBreakpointAt BMState.initial.breakpoints locS = none ∧
      BreakpointManager.shouldPauseAt BMState.initial locS none 5 = (none, BMState.initial)) ∧
    (findBreakpointAt bmSingle.breakpoints locS = some bpEnabledS ∧
      bpEnabledS.enabled = true ∧
      findBreakpointAt ((BreakpointManager.shouldPauseAt bmSingle locS none 5).2).breakpoints locS =
        some { bpEnabledS with hitCount := bpEnabledS.hitCount + 1, lastHit := some 5 }) :=
  ⟨⟨rfl, (claim_C6_hit_count_amended BMState.initial locS none 5).1 rfl⟩,
   rfl, rfl,
   ((claim_C6_hit_count_amended bmSingle locS none 5).2.2 bpEnabledS rfl rfl).2⟩

/-- C9: when the try-block of condition evaluation throws, the wrapper
defaults to pausing (fail-open), and at `shouldPauseAt` level an
enabled conditioned breakpoint whose evaluation throws reports a hit;
a condition of kind logMessage evaluates to "do not pause" for every
context, so a log-only breakpoint never suspends execution. -/
theorem claim_C9_fail_open_and_log_only :
    (∀ (c : BreakpointCondition) (ctx : Option EvalContext) (bps : List Breakpoint) (e : String),
      evaluateConditionRaw c ctx bps = .error e → evaluateCondition c ctx bps = true) ∧
    (∀ (expr : String) (ctx : Option EvalContext) (bps : List Breakpoint),
      evaluateCondition { expression := expr, ctype := "logMessage" } ctx bps = false) ∧
    (∀ (bm : BMState) (loc : SourceLocation) (ctx : Option EvalContext) (now : Nat)
       (bp : Breakpoint) (c : BreakpointCondition) (e : String),
      findBreakpointAt bm.breakpoints loc = some bp → bp.enabled = true →
      bp.condition = some c →
      evaluateConditionRaw c ctx (updateFirstAt bm.breakpoints loc
        (fun b => { b with hitCount := b.hitCount + 1, lastHit := some now })) = .error e →
      ((BreakpointManager.shouldPauseAt bm loc ctx now).1).isSome = true) ∧
    (∀ (bm : BMState) (loc : SourceLocation) (ctx : Option EvalContext) (now : Nat)
       (bp : Breakpoint) (c : BreakpointCondition),
      findBreakpointAt bm.breakpoints loc = some bp → bp.enabled = true →
      bp.condition = some c → c.ctype = "logMessage" →
      (BreakpointManager.shouldPauseAt bm loc ctx now).1 = none) := by
  refine ⟨?_, ?_, ?_, ?_⟩
  · intro c ctx bps e h
    simp [evaluateCondition, h]
  · intro expr ctx bps
    simp [evaluateCondition, evaluateConditionRaw]
  · intro bm loc ctx now bp c e hf he hc herr
    have hp : evaluateCondition c ctx (updateFirstAt bm.breakpoints loc
        (fun b => { b with hitCount := b.hitCount + 1, lastHit := some now })) = true := by
      simp [evaluateCondition, herr]
    simp [BreakpointManager.shouldPauseAt, hf, he, hc, hp]
  · intro bm loc ctx now bp c hf he hc hty
    have hp : ∀ bps2, evaluateCondition c ctx bps2 = false := by
      intro bps2
      rcases c with ⟨cexpr, cty⟩
      simp at hty
      subst hty
      simp [evaluateCondition, evaluateConditionRaw]
    simp [BreakpointManager.shouldPauseAt, hf, he, hc, hp]

/-- C9 witness: a hit-count condition evaluated against a null context
throws and still reports a hit (fail-open), while a log-only breakpoint
is reached without suspending. -/
theorem claim_C9_fail_open_and_log_only_witness :
    (evaluateConditionRaw { expression := "2", ctype := "hitCount" } none [] =
      .error "TypeError: cannot read properties of null" ∧
     evaluateCondition { expression := "2", ctype := "hitCount" } none [] = true) ∧
    (evaluateCondition { expression := "reached", ctype := "logMessage" } none [] = false) ∧
    (((BreakpointManager.shouldPauseAt bmHitCond locS none 4).1).isSome = true) ∧
    ((BreakpointManager.shouldPauseAt bmLogCond locS none 4).1 = none) :=
  ⟨⟨rfl, claim_C9_fail_open_and_log_only.1 _ none [] _ rfl⟩,
   claim_C9_fail_open_and_log_only.2.1 "reached" none [],
   claim_C9_fail_open_and_log_only.2.2.1 bmHitCond locS none 4 bpHitCondS
     { expression := "2", ctype := "hitCount" } "TypeError: cannot read properties of null"
     rfl rfl rfl rfl,
   claim_C9_fail_open_and_log_only.2.2.2 bmLogCond locS none 4 bpLogCondS
     { expression := "reached", ctype := "logMessage" } rfl rfl rfl rfl⟩

/-- C8: a payload whose `breakpoints` field is missing, unreadable or
not an array makes `importBreakpoints` return success false, zero
imported and a non-empty error list, without touching the existing
registry and without an exception (the operation is a total
function). -/
theorem claim_C8_import_rejects_bad_payload :
    ∀ (bm : BMState) (j : Json) (now : Nat),
      breakpointsFieldArray j = false →
        (BreakpointManager.importBreakpoints bm j now).2 = bm ∧
        (BreakpointManager.importBreakpoints bm j now).1.success = false ∧
        (BreakpointManager.importBreakpoints bm j now).1.imported = 0 ∧
        (BreakpointManager.importBreakpoints bm j now).1.errors ≠ [] := by
  intro bm j now h
  unfold BreakpointManager.importBreakpoints
  unfold breakpointsFieldArray at h
  cases hj : j.get "breakpoints" with
  | error e => simp [hj]
  | ok o =>
    rw [hj] at h
    cases o with
    | none => simp [jsTruthyOpt]
    | some v =>
      cases v with
      | jarr es => simp at h
      | jnull => simp [jsTruthyOpt, Json.jsTruthy]
      | jbool b => cases b <;> simp [jsTruthyOpt, Json.jsTruthy]
      | jnum n =>
        by_cases hn : n = 0 <;> simp [jsTruthyOpt, Json.jsTruthy, hn]
      | jstr s =>
        by_cases hs : s = "" <;> simp [jsTruthyOpt, Json.jsTruthy, hs]
      | jobj fields => simp [jsTruthyOpt, Json.jsTruthy]

/-- C8 witness: the spec scenario payload with a string under
`breakpoints`, against a non-empty registry. -/
theorem claim_C8_import_rejects_bad_payload_witness :
    breakpointsFieldArray jNotArr = false ∧
      (BreakpointManager.importBreakpoints bmSingle jNotArr 9).2 = bmSingle ∧
      (BreakpointManager.importBreakpoints bmSingle jNotArr 9).1.success = false ∧
      (BreakpointManager.importBreakpoints bmSingle jNotArr 9).1.imported = 0 ∧
      (BreakpointManager.importBreakpoints bmSingle jNotArr 9).1.errors ≠ [] :=
  ⟨rfl, claim_C8_import_rejects_bad_payload bmSingle jNotArr 9 rfl⟩

namespace BreakpointManager

/-- Importing the export encoding of one breakpoint succeeds and adds a
breakpoint carrying the same persisted tuple. -/
theorem importEntry_export (er : List String) (im : Nat) (bm : BMState)
    (b : Breakpoint) (now : Nat) :
    importEntry (er, im, bm) (breakpointToJson b) now =
      (er, im + 1, (addBreakpoint bm b.location (some b.enabled)
        b.condition b.logMessage now).2) := by
  rcases b with ⟨bid, ⟨bline, bcol⟩, ben, bcond, bhits, bca, blh, blm⟩
  cases bcol <;> cases bcond <;> cases blm <;>
    simp [importEntry, breakpointToJson, Json.get, lookupAssoc, jsTruthyOpt,
      Json.jsTruthy, decodeEnabled, decodeCondition, decodeLogMessage,
      decodeLocation, addBreakpoint]

/-- Importing a list of export encodings appends breakpoints carrying
exactly the original tuples, in order. -/
theorem importLoop_export (bs : List Breakpoint) (er : List String) (im : Nat)
    (bm : BMState) (now : Nat) :
    ((importLoop (bs.map breakpointToJson) (er, im, bm) now).2.2).breakpoints.map bpTuple =
      bm.breakpoints.map bpTuple ++ bs.map bpTuple := by
  induction bs generalizing er im bm with
  | nil => simp [importLoop]
  | cons b rest ih =>
    simp only [List.map_cons, importLoop, importEntry_export]
    rw [ih]
    simp [addBreakpoint, bpTuple]

end BreakpointManager

/-- C7: exporting a registry and importing the payload into an empty
registry reproduces the same (location, enabled, condition, logMessage)
tuples in the same order (ids and timestamps are regenerated). -/
theorem claim_C7_export_import_roundtrip :
    ∀ (bps : List Breakpoint) (nid now nid2 now2 : Nat),
      (((BreakpointManager.importBreakpoints { breakpoints := [], nextId := nid2 }
          (exportBreakpoints { breakpoints := bps, nextId := nid } now) now2).2).breakpoints).map bpTuple =
        bps.map bpTuple := by
  intro bps nid now nid2 now2
  unfold BreakpointManager.importBreakpoints exportBreakpoints
  simp only [Json.get, lookupAssoc]
  norm_num
  simpa using importLoop_export bps [] 0 { breakpoints := [], nextId := nid2 } now2

namespace BreakpointManager

/-- A well-formed entry imports as exactly one appended breakpoint with
no error recorded. -/
theorem importEntry_wf (er : List String) (im : Nat) (bm : BMState)
    (e : Json) (now : Nat) (h : entryWellFormed e = true) :
    ∃ bnew, importEntry (er, im, bm) e now =
      (er, im + 1, { breakpoints := bm.breakpoints ++ [bnew], nextId := bm.nextId + 1 }) := by
  unfold entryWellFormed at h
  unfold importEntry
  cases hl : e.get "location" with
  | error e2 => rw [hl] at h; simp at h
  | ok locOpt =>
    rw [hl] at h
    cases locOpt with
    | none => simp [jsTruthyOpt] at h
    | some loc =>
      simp only [Bool.and_eq_true] at h
      obtain ht := h.1
      have hline := h.2
      cases hll : loc.get "line" with
      | error e3 => rw [hll] at hline; simp at hline
      | ok lineOpt =>
        rw [hll] at hline
        match lineOpt, hline with
        | some (.jnum n), _ =>
          refine ⟨⟨generateId bm.nextId now, decodeLocation loc n,
            (decodeEnabled (match e.get "enabled" with | .ok v => v | .error _ => none)).getD true,
            decodeCondition (match e.get "condition" with | .ok v => v | .error _ => none),
            0, now, none,
            decodeLogMessage (match e.get "logMessage" with | .ok v => v | .error _ => none)⟩, ?_⟩
          simp [ht, hll, addBreakpoint]

/-- A malformed entry records exactly one error and leaves the
registry and the imported count unchanged. -/
theorem importEntry_bad (er : List String) (im : Nat) (bm : BMState)
    (e : Json) (now : Nat) (h : entryWellFormed e = false) :
    ∃ msg, importEntry (er, im, bm) e now = (er ++ [msg], im, bm) := by
  unfold entryWellFormed at h
  unfold importEntry
  cases hl : e.get "location" with
  | error e2 => exact ⟨"Failed to import breakpoint: TypeError", rfl⟩
  | ok locOpt =>
    rw [hl] at h
    by_cases ht : jsTruthyOpt locOpt = true
    · cases locOpt with
      | none => simp [jsTruthyOpt] at ht
      | some loc =>
        simp only [Bool.true_and, ht] at h
        refine ⟨"Invalid breakpoint location", ?_⟩
        cases hll : loc.get "line" with
        | error e3 => simp [ht, hll]
        | ok lineOpt =>
          rw [hll] at h
          match lineOpt, h with
          | none, _ => simp [ht, hll]
          | some .jnull, _ => simp [ht, hll]
          | some (.jbool b), _ => simp [ht, hll]
          | some (.jnum n), h2 => simp at h2
          | some (.jstr s2), _ => simp [ht, hll]
          | some (.jarr es), _ => simp [ht, hll]
          | some (.jobj fs), _ => simp [ht, hll]
    · have ht2 : jsTruthyOpt locOpt = false := by
        revert ht; cases jsTruthyOpt locOpt <;> simp
      refine ⟨"Invalid breakpoint location", ?_⟩
      cases locOpt with
      | none => simp [jsTruthyOpt]
      | some loc => simp [ht2]

/-- The accumulated effect of the import entry loop: appended
breakpoints for the well-formed entries, an error per malformed entry,
and the imported count of the well-formed ones. -/
theorem importLoop_spec (entries : List Json) (er : List String) (im : Nat)
    (bm : BMState) (now : Nat) :
    (∃ rest, ((importLoop entries (er, im, bm) now).2.2).breakpoints =
        bm.breakpoints ++ rest ∧
        rest.length = (entries.filter entryWellFormed).length) ∧
    (importLoop entries (er, im, bm) now).2.1 =
        im + (entries.filter entryWellFormed).length ∧
    (∃ msgs, (importLoop entries (er, im, bm) now).1 = er ++ msgs ∧
        msgs.length = (entries.filter (fun x => !(entryWellFormed x))).length) := by
  induction entries generalizing er im bm with
  | nil => exact ⟨⟨[], by simp [importLoop], by simp⟩, by simp [importLoop], ⟨[], by simp [importLoop], by simp⟩⟩
  | cons e rest ih =>
    cases hwf : entryWellFormed e with
    | true =>
      obtain ⟨bnew, heq⟩ := importEntry_wf er im bm e now hwf
      have hstep : importLoop (e :: rest) (er, im, bm) now =
          importLoop rest (er, im + 1,
            { breakpoints := bm.breakpoints ++ [bnew], nextId := bm.nextId + 1 }) now := by
        simp [importLoop, heq]
      rw [hstep]
      obtain ⟨⟨rest2, hbr, hlen⟩, him, ⟨msgs, herr, hmlen⟩⟩ :=
        ih er (im + 1) { breakpoints := bm.breakpoints ++ [bnew], nextId := bm.nextId + 1 }
      refine ⟨⟨bnew :: rest2, ?_, ?_⟩, ?_, ⟨msgs, herr, ?_⟩⟩
      · simpa using hbr
      · simp [hlen, List.filter, hwf]
      · simp [him, List.filter, hwf]; omega
      · simp [hmlen, List.filter, hwf]
    | false =>
      obtain ⟨msg, heq⟩ := importEntry_bad er im bm e now hwf
      have hstep : importLoop (e :: rest) (er, im, bm) now =
          importLoop rest (er ++ [msg], im, bm) now := by
        simp [importLoop, heq]
      rw [hstep]
      obtain ⟨⟨rest2, hbr, hlen⟩, him, ⟨msgs, herr, hmlen⟩⟩ :=
        ih (er ++ [msg]) im bm
      refine ⟨⟨rest2, hbr, ?_⟩, ?_, ⟨msg :: msgs, ?_, ?_⟩⟩
      · simp [hlen, List.filter, hwf]
      · simp [him, List.filter, hwf]
      · simpa using herr
      · simp [hmlen, List.filter, hwf]

/-- The all-predicate over a list agrees with emptiness of the filter
by the negated predicate. -/
theorem all_eq_filter_not_length (p : α → Bool) (l : List α) :
    l.all p = decide ((l.filter (fun x => !(p x))).length = 0) := by
  induction l with
  | nil => simp
  | cons a rest ih =>
    cases ha : p a <;> simp [List.filter, ha, ih]

end BreakpointManager

/-- C10: `importBreakpoints` reports success exactly when its error
list is empty; and on an array payload mixing well-formed and malformed
entries, every well-formed entry is added to the registry (appended
after the existing breakpoints, which are untouched) and counted in
`imported`, each malformed entry contributes one error, and the overall
success flag is true only when every entry was well-formed — imported
entries are not rolled back. -/
theorem claim_C10_import_success_iff_no_errors :
    (∀ (bm : BMState) (j : Json) (now : Nat),
      ((BreakpointManager.importBreakpoints bm j now).1.success = true) ↔
        ((BreakpointManager.importBreakpoints bm j now).1.errors = [])) ∧
    (∀ (bm : BMState) (entries : List Json) (now : Nat),
      ((BreakpointManager.importBreakpoints bm (.jobj [("breakpoints", .jarr entries)]) now).2.breakpoints.length =
          bm.breakpoints.length + (entries.filter entryWellFormed).length) ∧
      ((BreakpointManager.importBreakpoints bm (.jobj [("breakpoints", .jarr entries)]) now).1.imported =
          (entries.filter entryWellFormed).length) ∧
      ((BreakpointManager.importBreakpoints bm (.jobj [("breakpoints", .jarr entries)]) now).1.errors.length =
          (entries.filter (fun x => !(entryWellFormed x))).length) ∧
      ((BreakpointManager.importBreakpoints bm (.jobj [("breakpoints", .jarr entries)]) now).1.success =
          entries.all entryWellFormed) ∧
      ((BreakpointManager.importBreakpoints bm (.jobj [("breakpoints", .jarr entries)]) now).2.breakpoints.take
          bm.breakpoints.length = bm.breakpoints)) := by
  have harr : ∀ (bm : BMState) (entries : List Json) (now : Nat),
      BreakpointManager.importBreakpoints bm (.jobj [("breakpoints", .jarr entries)]) now =
        (let r := importLoop entries ([], 0, bm) now
         ({ success := r.1.length = 0, imported := r.2.1, errors := r.1 }, r.2.2)) := by
    intro bm entries now
    rfl
  constructor
  · intro bm j now
    unfold BreakpointManager.importBreakpoints
    cases hj : j.get "breakpoints" with
    | error e => simp
    | ok o =>
      cases o with
      | none => simp [jsTruthyOpt]
      | some v =>
        cases v with
        | jarr es =>
          simp only [jsTruthyOpt, Json.jsTruthy, if_neg, Bool.not_true, not_false_eq_true]
          simp [List.length_eq_zero]
        | jnull => simp [jsTruthyOpt, Json.jsTruthy]
        | jbool b => cases b <;> simp [jsTruthyOpt, Json.jsTruthy]
        | jnum n => by_cases hn : n = 0 <;> simp [jsTruthyOpt, Json.jsTruthy, hn]
        | jstr s => by_cases hs : s = "" <;> simp [jsTruthyOpt, Json.jsTruthy, hs]
        | jobj fields => simp [jsTruthyOpt, Json.jsTruthy]
  · intro bm entries now
    obtain ⟨⟨rest, hbr, hlen⟩, him, ⟨msgs, herr, hmlen⟩⟩ :=
      importLoop_spec entries [] 0 bm now
    rw [harr]
    simp only []
    refine ⟨?_, ?_, ?_, ?_, ?_⟩
    · simp [hbr, hlen]
    · simp [him]
    · simp [herr, hmlen]
    · simp only [herr, List.nil_append]
      rw [all_eq_filter_not_length]
      simp [hmlen]
    · simp [hbr, List.take_left]

namespace Interpreter

/-- Binary-expression evaluation never moves the statement cursor. -/
theorem execBin_cursor (e : Expr) : ∀ (s : InterpState) (d : DbgState) (now : Nat),
    ((execBin e s d now).1.1).currentLineIndex = s.currentLineIndex := by
  induction e with
  | ebin op l r sp ihl ihr =>
    intro s d now
    simp only [execBin]
    cases l <;> cases r <;> simp [ihl, ihr]
  | enum v sp => intro s d now; simp [execBin]
  | evar n sp => intro s d now; simp [execBin]
  | elit v sp => intro s d now; simp [execBin]
  | eother t sp => intro s d now; simp [execBin]

/-- The print child loop never moves the statement cursor. -/
theorem execPrintChildren_cursor (cs : List Expr) :
    ∀ (s : InterpState) (d : DbgState) (now : Nat),
      ((execPrintChildren cs s d now).1.1).currentLineIndex = s.currentLineIndex := by
  induction cs with
  | nil => intro s d now; simp [execPrintChildren]
  | cons c rest ih =>
    intro s d now
    cases c <;> simp [execPrintChildren, execBin_cursor, ih]

/-- Print statements never move the statement cursor. -/
theorem execPrint_cursor (children : Option (List Expr)) (sp : Option Span)
    (s : InterpState) (d : DbgState) (now : Nat) :
    ((execPrint children sp s d now).1.1).currentLineIndex = s.currentLineIndex := by
  cases children <;> simp [execPrint, execPrintChildren_cursor]

/-- Assignments never move the statement cursor. -/
theorem execAssign_cursor (varName : Option String) (e : Option Expr)
    (sp : Option Span) (s : InterpState) (d : DbgState) (now : Nat) :
    ((execAssign varName e sp s d now).1.1).currentLineIndex = s.currentLineIndex := by
  cases varName with
  | none => cases e <;> simp [execAssign]
  | some name =>
    cases e with
    | none => simp [execAssign]
    | some v => cases v <;> simp [execAssign, execBin_cursor]

/-- The IF branch loop never moves the statement cursor. -/
theorem execBranchStmts_cursor (stmts : List Stmt) :
    ∀ (branch : String) (s : InterpState) (d : DbgState) (now : Nat),
      ((execBranchStmts stmts branch s d now).1.1).currentLineIndex = s.currentLineIndex := by
  induction stmts with
  | nil => intro branch s d now; simp [execBranchStmts]
  | cons st rest ih =>
    intro branch s d now
    cases st <;> simp [execBranchStmts, execPrint_cursor, execAssign_cursor, ih]

/-- IF statements never move the statement cursor. -/
theorem execIf_cursor (condOp : String) (condL condR : Expr) (condSpan : Option Span)
    (thenB : List Stmt) (elseB : Option (List Stmt)) (sp : Option Span)
    (s : InterpState) (d : DbgState) (now : Nat) :
    ((execIf condOp condL condR condSpan thenB elseB sp s d now).1.1).currentLineIndex =
      s.currentLineIndex := by
  unfold execIf
  dsimp only
  split <;> try split
  all_goals simp [execBranchStmts_cursor, execBin_cursor]

/-- GOTO statements never move the statement cursor. -/
theorem execGoto_cursor (target : Int) (sp : Option Span)
    (s : InterpState) (d : DbgState) (now : Nat) :
    ((execGoto target sp s d now).1.1).currentLineIndex = s.currentLineIndex := by
  simp [execGoto]

/-- Statement dispatch never moves the statement cursor. -/
theorem execStmt_cursor (st : Stmt) (s : InterpState) (d : DbgState) (now : Nat) :
    ((execStmt st s d now).1).currentLineIndex = s.currentLineIndex := by
  cases st <;> simp [execStmt, execPrint_cursor, execAssign_cursor, execIf_cursor,
    execGoto_cursor]

/-- Executing one line never moves the statement cursor: the cursor is
owned by the driver loops alone. -/
theorem executeLine_cursor (s : InterpState) (d : DbgState) (ln : Line) (now : Nat) :
    ((executeLine s d ln now).1).currentLineIndex = s.currentLineIndex := by
  unfold executeLine
  dsimp only
  repeat' split
  all_goals simp [execStmt_cursor]

end Interpreter

/-- C4: `executeLine` never moves the persisted statement cursor, and
whenever the shared driver loop of `run`/`resume` observes a paused
debugger after `executeLine` it returns immediately with the cursor
still at that statement index; `resume` re-enters the loop at the
persisted cursor and `run` on an in-flight execution does the same, so
a statement index is left behind only after its statement executed
without suspension. -/
theorem claim_C4_cursor_advances_only_without_pause :
    (∀ (s : InterpState) (d : DbgState) (ln : Line) (now : Nat),
      ((executeLine s d ln now).1).currentLineIndex = s.currentLineIndex) ∧
    (∀ (body : List Line) (s : InterpState) (d : DbgState) (i now : Nat)
       (h : i < body.length),
      isPausedD (executeLine { s with currentLineIndex := i } d (body.get ⟨i, h⟩) now).2 = true →
        (runFrom body s d i now =
          ({ (executeLine { s with currentLineIndex := i } d (body.get ⟨i, h⟩) now).1 with
              output := (executeLine { s with currentLineIndex := i } d (body.get ⟨i, h⟩) now).1.output ++ pauseMsg },
            (executeLine { s with currentLineIndex := i } d (body.get ⟨i, h⟩) now).2) ∧
         ((runFrom body s d i now).1).currentLineIndex = i)) ∧
    (∀ (s : InterpState) (d : DbgState) (now : Nat) (body : List Line),
      s.isExecuting = true → s.currentAst = some body →
        Interpreter.resume s d now =
          .ok (runFrom body { s with output := stripPauseMsg s.output } d s.currentLineIndex now)) ∧
    (∀ (s : InterpState) (d : DbgState) (ast : List Line) (now : Nat),
      s.isExecuting = true →
        Interpreter.run s d ast now =
          runFrom (s.currentAst.getD []) { s with isExecuting := true }
            (startExecutionD d now).2 s.currentLineIndex now) := by
  refine ⟨executeLine_cursor, ?_, ?_, ?_⟩
  · intro body s d i now h hp
    have heq : runFrom body s d i now =
        ({ (executeLine { s with currentLineIndex := i } d (body.get ⟨i, h⟩) now).1 with
            output := (executeLine { s with currentLineIndex := i } d (body.get ⟨i, h⟩) now).1.output ++ pauseMsg },
          (executeLine { s with currentLineIndex := i } d (body.get ⟨i, h⟩) now).2) := by
      unfold runFrom
      rw [dif_pos h]
      dsimp only
      rw [hp]
      rfl
    refine ⟨heq, ?_⟩
    rw [heq]
    show ((executeLine { s with currentLineIndex := i } d (body.get ⟨i, h⟩) now).1).currentLineIndex = i
    rw [executeLine_cursor]
  · intro s d now body h1 h2
    unfold Interpreter.resume
    rw [h1, h2]
    rfl
  · intro s d ast now h
    unfold Interpreter.run
    rw [h]
    rfl

/-- C4 witness: a stepping-armed debugger pauses on the only statement
of a one-line program; the loop and `resume` keep the cursor at 0. -/
theorem claim_C4_cursor_advances_only_without_pause_witness :
    ((executeLine sRun dSteppingS (lineEndAt 10) 1).1.currentLineIndex = sRun.currentLineIndex) ∧
    (isPausedD (executeLine { sRun with currentLineIndex := 0 } dSteppingS
        (body1.get ⟨0, Nat.one_pos⟩) 1).2 = true) ∧
    (((runFrom body1 sRun dSteppingS 0 1).1).currentLineIndex = 0) ∧
    (sRun.isExecuting = true ∧ sRun.currentAst = some body1 ∧
      Interpreter.resume sRun dSteppingS 1 =
        .ok (runFrom body1 { sRun with output := stripPauseMsg sRun.output } dSteppingS
          sRun.currentLineIndex 1)) :=
  ⟨claim_C4_cursor_advances_only_without_pause.1 sRun dSteppingS (lineEndAt 10) 1,
   by decide,
   (claim_C4_cursor_advances_only_without_pause.2.1 body1 sRun dSteppingS 0 1
     Nat.one_pos (by decide)).2,
   rfl, rfl,
   claim_C4_cursor_advances_only_without_pause.2.2.1 sRun dSteppingS 1 body1 rfl rfl⟩

/-- C5: the code line of `Interpreter.step()` meant to re-arm stepping
(`setStepMode`, commented "Set back to step mode and pause") is
silently rejected because the state is Running when it runs, leaving
step mode Run and state Running after a step from Paused; and after the
third step on a three-statement program the cursor is reset to 0 with
the execution no longer in flight (completion), not min(3,3) = 3. -/
theorem claim_C5_step_does_not_rearm_stepping :
    ((stepResult (sFlight, dPausedS) 1).2.sm.stepMode = StepMode.run ∧
     (stepResult (sFlight, dPausedS) 1).2.sm.currentState = DebuggerState.running ∧
     (stepResult (sFlight, dPausedS) 1).1.currentLineIndex = 1) ∧
    ((stepResult (stepResult (stepResult (sFlight, dPausedS) 1) 2) 3).1.currentLineIndex = 0 ∧
     (stepResult (stepResult (stepResult (sFlight, dPausedS) 1) 2) 3).1.isExecuting = false) := by
  refine ⟨⟨?_, ?_, ?_⟩, ?_, ?_⟩ <;> decide
